import Mathlib

/-!
Shallow embedding of the memos-manager plugin (src/main.py, src/memos_client.py,
src/tool_models.py): date-bound resolution, the paginated search pipeline,
keyword matching, the audit builder, the UID allow-list gate, and the
archive-list composition, together with theorems settling the frozen claims.

Conventions of the embedding:
* Python `datetime` values resolved to UTC are represented as epoch seconds
  (`Int`).  The caller's local time zone is modelled as a fixed UTC offset in
  seconds (`tz` parameters), matching `datetime.now().astimezone().tzinfo`.
* Python dictionaries holding memo records are association lists over a small
  universe `PyVal` of Python values; `dictGet` models `dict.get`.
* Fallible Python code (functions that may raise) returns `Except String _`.
* `date.fromisoformat` / `datetime.fromisoformat` are modelled on the
  dash-separated ISO-8601 grammar the plugin documents and uses
  (`YYYY-MM-DD`, `YYYY-MM-DD[T ]HH[:MM[:SS]][±HH:MM]`); fractional seconds
  and basic-format inputs are outside the model.
-/

namespace MemosManager

/-! ## Character and string utilities -/

/-- Is `pat` a leading segment of `l`?  (Used to model Python `in`.) -/
def listStarts : List Char → List Char → Bool
  | [], _ => true
  | _ :: _, [] => false
  | p :: ps, c :: cs => p == c && listStarts ps cs

/-- Does `pat` occur contiguously inside `l`?  (Python substring `in`.) -/
def containsSeg (pat : List Char) : List Char → Bool
  | [] => pat.isEmpty
  | c :: cs => listStarts pat (c :: cs) || containsSeg pat cs

/-- Python `pat in hay` on strings. -/
def containsStr (pat hay : String) : Bool :=
  containsSeg pat.data hay.data

/-- Python truthiness test `not s` on strings (kernel-friendly). -/
def strEmpty (s : String) : Bool :=
  s.data.isEmpty

/-- Python `str.strip()` (ASCII whitespace). -/
def pyStrip (s : String) : String :=
  ⟨((s.data.dropWhile Char.isWhitespace).reverse.dropWhile Char.isWhitespace).reverse⟩

/-- Python `str.lower` (ASCII). -/
def pyLower (s : String) : String :=
  ⟨s.data.map Char.toLower⟩

/-- Python string slicing `s[:n]` (by code points). -/
def strTake (s : String) (n : Nat) : String :=
  ⟨s.data.take n⟩

/-- Python `sep.join(parts)`. -/
def joinSep (sep : String) : List String → String
  | [] => ""
  | [x] => x
  | x :: y :: rest => x ++ sep ++ joinSep sep (y :: rest)

/-- Helper for `pySplitComma`: current fragment accumulated in reverse. -/
def splitCommaAux : List Char → List Char → List String
  | [], acc => [⟨acc.reverse⟩]
  | ',' :: rest, acc => (⟨acc.reverse⟩ : String) :: splitCommaAux rest []
  | c :: rest, acc => splitCommaAux rest (c :: acc)

/-- Python `s.split(",")`. -/
def pySplitComma (s : String) : List String :=
  splitCommaAux s.data []

/-- Models Python `str.casefold` (restricted to ASCII case folding; the
case-insensitivity claims are parametric in the fold function). -/
def caseFold (s : String) : String :=
  ⟨s.data.map Char.toLower⟩

/-- Python `str.isdigit` (ASCII digits). -/
def strIsDigits (s : String) : Bool :=
  !strEmpty s && s.data.all Char.isDigit

/-- Python `str.rstrip("/")`. -/
def rstripSlashes (s : String) : String :=
  ⟨(s.data.reverse.dropWhile (· == '/')).reverse⟩

/-- Does `suf` end `l`? -/
def listEnds (suf l : List Char) : Bool :=
  listStarts suf.reverse l.reverse

/-- Python `text.replace("Z", "+00:00")`. -/
def strReplaceZ (s : String) : String :=
  ⟨(s.data.map (fun c => if c == 'Z' then "+00:00".data else [c])).flatten⟩

/-! ## Python values and memo dictionaries -/

/-- A small universe of the Python values the plugin moves around. -/
inductive PyVal where
  | str (s : String)
  | int (n : Int)
  | bool (b : Bool)
  | pynone
  | list (xs : List PyVal)

/-- A memo record as seen by the plugin: a Python dict. -/
abbrev Memo := List (String × PyVal)

/-- Python `dict.get(key, default)` (first binding wins). -/
def dictGet (m : Memo) (k : String) (dflt : PyVal) : PyVal :=
  match m.find? (fun kv => kv.1 == k) with
  | some kv => kv.2
  | none => dflt

/-- Python `str(v)`.  Faithful for strings (the only case the claims depend
on); non-string values get a simplified rendering of Python's `str`. -/
def pyToStr : PyVal → String
  | .str s => s
  | .int n => toString n
  | .bool b => if b then "True" else "False"
  | .pynone => "None"
  | .list _ => "[...]"

/-- Collect the strings of a Python list, raising `TypeError` at the first
non-string element — the behaviour of `str.join` over a heterogeneous list. -/
def pyStrList : List PyVal → Except String (List String)
  | [] => .ok []
  | .str s :: rest => (pyStrList rest).map (fun ss => s :: ss)
  | _ :: _ => .error "sequence item: expected str instance"

/-- Python `" ".join(xs)`. -/
def pyJoinSpace (xs : List PyVal) : Except String String :=
  (pyStrList xs).map (joinSep " ")

/-! ## Calendar arithmetic -/

/-- A parsed calendar date (`datetime.date`). -/
structure Date where
  y : Nat
  m : Nat
  d : Nat
deriving DecidableEq, Repr

def isLeapYear (y : Nat) : Bool :=
  y % 4 == 0 && (y % 100 != 0 || y % 400 == 0)

def daysInMonth (y m : Nat) : Nat :=
  if m = 2 then (if isLeapYear y then 29 else 28)
  else if m = 4 ∨ m = 6 ∨ m = 9 ∨ m = 11 then 30
  else 31

/-- Days from 1970-01-01 to the given civil date (days-from-civil algorithm,
valid for the parser's year range 1–9999). -/
def daysFromCivil (dt : Date) : Int :=
  let y := dt.y - (if dt.m ≤ 2 then 1 else 0)
  let era := y / 400
  let yoe := y % 400
  let mp := (dt.m + 9) % 12
  let doy := (153 * mp + 2) / 5 + dt.d - 1
  let doe := yoe * 365 + yoe / 4 - yoe / 100 + doy
  (era * 146097 + doe : Nat) - (719468 : Int)

/-- UTC epoch seconds of a civil date/time carrying a UTC offset `off`
(seconds east); models `datetime(..., tzinfo).timestamp()`. -/
def toEpoch (dt : Date) (h mi s : Nat) (off : Int) : Int :=
  daysFromCivil dt * 86400 + (h * 3600 + mi * 60 + s : Nat) - off

/-! ## ISO-8601 parsing (`date.fromisoformat` / `datetime.fromisoformat`) -/

def charDigit (c : Char) : Option Nat :=
  if c.isDigit then some (c.toNat - 48) else none

def twoDigits (a b : Char) : Option Nat :=
  match charDigit a, charDigit b with
  | some x, some y => some (10 * x + y)
  | _, _ => none

def fourDigits (a b c d : Char) : Option Nat :=
  match twoDigits a b, twoDigits c d with
  | some x, some y => some (100 * x + y)
  | _, _ => none

/-- `date.fromisoformat` on the `YYYY-MM-DD` grammar, with range checks. -/
def parseDateList (cs : List Char) : Option Date :=
  match cs with
  | [y1, y2, y3, y4, s1, m1, m2, s2, d1, d2] =>
    if s1 = '-' ∧ s2 = '-' then
      match fourDigits y1 y2 y3 y4, twoDigits m1 m2, twoDigits d1 d2 with
      | some y, some mo, some da =>
        if 1 ≤ y ∧ y ≤ 9999 ∧ 1 ≤ mo ∧ mo ≤ 12 ∧ 1 ≤ da ∧ da ≤ daysInMonth y mo then
          some ⟨y, mo, da⟩
        else none
      | _, _, _ => none
    else none
  | _ => none

/-- Time-of-day part: `HH`, `HH:MM` or `HH:MM:SS`. -/
def parseTimeList (cs : List Char) : Option (Nat × Nat × Nat) :=
  match cs with
  | [h1, h2] =>
    match twoDigits h1 h2 with
    | some h => if h ≤ 23 then some (h, 0, 0) else none
    | none => none
  | [h1, h2, c, m1, m2] =>
    if c = ':' then
      match twoDigits h1 h2, twoDigits m1 m2 with
      | some h, some m => if h ≤ 23 ∧ m ≤ 59 then some (h, m, 0) else none
      | _, _ => none
    else none
  | [h1, h2, c1, m1, m2, c2, s1, s2] =>
    if c1 = ':' ∧ c2 = ':' then
      match twoDigits h1 h2, twoDigits m1 m2, twoDigits s1 s2 with
      | some h, some m, some s =>
        if h ≤ 23 ∧ m ≤ 59 ∧ s ≤ 59 then some (h, m, s) else none
      | _, _, _ => none
    else none
  | _ => none

/-- UTC offset part `±HH:MM` (bounded below 24 hours, as `timezone` requires). -/
def parseOffList (cs : List Char) : Option Int :=
  match cs with
  | [sg, h1, h2, c, m1, m2] =>
    if c = ':' ∧ (sg = '+' ∨ sg = '-') then
      match twoDigits h1 h2, twoDigits m1 m2 with
      | some h, some m =>
        if h ≤ 23 ∧ m ≤ 59 then
          some ((if sg = '-' then (-1 : Int) else 1) * (h * 3600 + m * 60))
        else none
      | _, _ => none
    else none
  | _ => none

/-- Neither `'+'` nor `'-'` — the split point between time and offset. -/
def notSign (c : Char) : Bool :=
  !(c == '+' || c == '-')

/-- Time-of-day followed by an optional offset. -/
def parseTimeOff (cs : List Char) : Option (Nat × Nat × Nat × Option Int) :=
  let tpart := cs.takeWhile notSign
  let opart := cs.dropWhile notSign
  match parseTimeList tpart with
  | none => none
  | some (h, mi, s) =>
    match opart with
    | [] => some (h, mi, s, none)
    | _ => (parseOffList opart).map (fun k => (h, mi, s, some k))

/-- `datetime.fromisoformat` on the modelled grammar: a `YYYY-MM-DD` date,
optionally followed by a `'T'` or `' '` separator, a time of day and a UTC
offset.  Returns the civil fields plus the parsed offset (if any). -/
def parseDateTimeList (cs : List Char) : Option (Date × Nat × Nat × Nat × Option Int) :=
  match parseDateList (cs.take 10) with
  | none => none
  | some d =>
    match cs.drop 10 with
    | [] => some (d, 0, 0, 0, none)
    | sep :: tr =>
      if sep = 'T' ∨ sep = ' ' then
        (parseTimeOff tr).map (fun x => (d, x.1, x.2.1, x.2.2.1, x.2.2.2))
      else none

/-! ## `_parse_date_bound` and `_parse_memo_time` (src/main.py:250-285) -/

/-- `MemosManagerPlugin._parse_date_bound`: resolve an optional raw date
string into a UTC instant.  `tz` is the local zone's UTC offset in seconds.
Raising `ValueError(f"invalid date format: {raw}")` is modelled as
`Except.error`. -/
def parse_date_bound (tz : Int) (raw : Option String) (isEnd : Bool) :
    Except String (Option Int) :=
  match raw with
  | none => .ok none
  | some r =>
    let text := pyStrip r
    if strEmpty text then .ok none
    else if text.length = 10 then
      match parseDateList text.data with
      | some day =>
        .ok (some (if isEnd then toEpoch day 23 59 59 tz else toEpoch day 0 0 0 tz))
      | none => .error ("invalid date format: " ++ r)
    else
      match parseDateTimeList (strReplaceZ text).data with
      | some (d, h, mi, s, off) => .ok (some (toEpoch d h mi s (off.getD tz)))
      | none => .error ("invalid date format: " ++ r)

/-- `MemosManagerPlugin._parse_memo_time`: parse a memo's timestamp field;
non-string, empty or unparsable input yields `none`. -/
def parse_memo_time (tz : Int) (v : PyVal) : Option Int :=
  match v with
  | .str s =>
    if strEmpty s then none
    else
      match parseDateTimeList (strReplaceZ s).data with
      | some (d, h, mi, sec, off) => some (toEpoch d h mi sec (off.getD tz))
      | none => none
  | _ => none

/-! ## Configuration, audit builder, result envelope -/

/-- The configuration values the modelled operations consume, as read through
the `_cfg_str` / `_cfg_int` / `_cfg_bool` accessors.  `tz_offset` is the local
zone returned by `_local_tz`, as a UTC offset in seconds. -/
structure Config where
  memos_base_url : String
  memos_token : String
  search_max_count : Nat
  enable_ai_audit_log : Bool
  ai_audit_log_max_chars : Nat
  enable_uid_auth : Bool
  allowed_uids : String
  tz_offset : Int

/-- The audit payload `_build_audit` returns. -/
structure AuditTrace where
  trace_id : String
  steps : String
  metrics : Option (List (String × PyVal))

/-- `MemosManagerPlugin._build_audit` (src/main.py:101-124): join the steps
with newlines, truncate to the configured maximum appending `"..."`, and
attach metrics when a non-empty mapping was supplied.  Returns `none` when
auditing is disabled. -/
def build_audit (cfg : Config) (traceId : String) (steps : List String)
    (metrics : Option (List (String × PyVal))) : Option AuditTrace :=
  if !cfg.enable_ai_audit_log then none
  else
    let joined := joinSep "\n" steps
    let joined :=
      if cfg.ai_audit_log_max_chars < joined.length then
        strTake joined cfg.ai_audit_log_max_chars ++ "..."
      else joined
    some { trace_id := traceId, steps := joined,
           metrics := match metrics with
             | some ms => if ms.isEmpty then none else some ms
             | none => none }

/-- The operation-specific payload of a successful search-family result. -/
structure SearchResult where
  query_mode : String
  search_max_count : Nat
  matched_count : Nat
  memos : List Memo
  requested_limit : Option Int
  effective_limit : Option Int

/-- The uniform result envelope every operation returns
(`result := none` models the empty dict of failure envelopes). -/
structure Envelope where
  ok : Bool
  trace_id : String
  result : Option SearchResult
  audit : Option AuditTrace
  errors : List String

/-- A failure envelope, as built on the error paths of `run_search`. -/
def fail_envelope (cfg : Config) (traceId : String) (steps : List String)
    (errors : List String) : Envelope :=
  { ok := false, trace_id := traceId, result := none,
    audit := build_audit cfg traceId steps none, errors := errors }

/-! ## UID allow-list gate (src/main.py:130-244) -/

/-- `MemosManagerPlugin._parse_allowed_uids`: comma-split, strip, keep only
all-digit entries.  (The Python set is modelled as the filtered list; only
membership and emptiness are consumed.) -/
def parse_allowed_uids (raw : String) : List String :=
  (((pySplitComma raw).map pyStrip).filter (fun x => !strEmpty x)).filter strIsDigits

/-- `MemosManagerPlugin._check_tool_permission`.  The identity-extraction
chain `_extract_uid_from_ctx` is abstracted by its result `uid` (an
unresolved or falsy identifier is `none` / the empty string). -/
def check_tool_permission (cfg : Config) (uid : Option String) (toolName : String) :
    Bool × String × Option String :=
  if !cfg.enable_uid_auth then (true, "uid_auth_disabled", none)
  else
    match uid with
    | none => (false, "uid_missing_for_tool_" ++ toolName, none)
    | some u =>
      if strEmpty u then (false, "uid_missing_for_tool_" ++ toolName, none)
      else
        let allowed := parse_allowed_uids cfg.allowed_uids
        if allowed.isEmpty then (false, "allowed_uids_empty", some u)
        else if allowed.contains u then (true, "uid_allowed", some u)
        else (false, "uid_not_allowed_for_tool_" ++ toolName, some u)

/-- `MemosManagerPlugin._auth_denied_result`: the uniform denial envelope. -/
def auth_denied_result (cfg : Config) (traceId toolName reason : String) : Envelope :=
  { ok := false, trace_id := traceId, result := none,
    audit := build_audit cfg traceId
      ["auth_denied tool=" ++ toolName, "reason=" ++ reason] none,
    errors := ["当前用户无权限使用该工具"] }

/-- `BaseMemosTool._check_auth_or_return`: `none` when the call may proceed,
otherwise the denial envelope. -/
def check_auth_or_return (cfg : Config) (traceId : String) (uid : Option String)
    (toolName : String) : Option Envelope :=
  match check_tool_permission cfg uid toolName with
  | (true, _, _) => none
  | (false, reason, _) => some (auth_denied_result cfg traceId toolName reason)

/-! ## Keyword matcher (src/main.py:287-296) -/

/-- `MemosManagerPlugin._memo_match_keyword`: case-insensitive containment of
the query in content, snippet and space-joined tags.  `" ".join` raises
`TypeError` on a tags list holding a non-string, hence the `Except`. -/
def memo_match_keyword (memo : Memo) (query : String) : Except String Bool :=
  let q_cf := caseFold query
  let content := pyToStr (dictGet memo "content" (.str ""))
  let snippet := pyToStr (dictGet memo "snippet" (.str ""))
  let tags := dictGet memo "tags" (.list [])
  match (match tags with | .list xs => pyJoinSpace xs | _ => .ok "") with
  | .error e => .error e
  | .ok tagsText =>
    let haystack := caseFold (content ++ "\n" ++ snippet ++ "\n" ++ tagsText)
    .ok (containsStr q_cf haystack)

/-- A Python list comprehension with a fallible predicate: evaluates left to
right, propagating the first raised exception. -/
def filterE (f : α → Except String Bool) : List α → Except String (List α)
  | [] => .ok []
  | x :: xs =>
    match f x with
    | .error e => .error e
    | .ok b =>
      match filterE f xs with
      | .error e => .error e
      | .ok r => .ok (if b then x :: r else r)

/-! ## The paginated search pipeline (src/main.py:298-468) -/

/-- One response of the remote collaborator's `GET /memos`, as returned by
`MemosClient.list_memos_page` (records sanitized, empty token normalized
away on the client side but re-checked truthily by the loop). -/
structure PageResp where
  memos : List Memo
  nextToken : Option String

/-- The query-string parameters of one `list_memos_page` request
(`sort=display_time`, `direction=DESC` are fixed and omitted). -/
structure PageRequest where
  pageSize : Nat
  pageToken : Option String
  state : String
  oldFilter : Option String
deriving DecidableEq, Repr

/-- Python truthiness of an optional string. -/
def tokenTruthy : Option String → Bool
  | none => false
  | some s => !strEmpty s

/-- The parameter dict `list_memos_page` builds: optional entries are present
only when truthy. -/
def mkPageRequest (includeArchived : Bool) (oldFilter tok : Option String) : PageRequest :=
  { pageSize := 100,
    pageToken := if tokenTruthy tok then tok else none,
    state := if includeArchived then "ARCHIVED" else "NORMAL",
    oldFilter := if tokenTruthy oldFilter then oldFilter else none }

/-- The plugin-side date filter applied per fetched record inside the page
loop (src/main.py:371-381): pass-through for `display_time` (pushed down to
the server), otherwise parse the record's own field and drop records that are
missing, unparsable or out of bounds. -/
def date_pass (tz : Int) (sel : String) (startDt endDt : Option Int) (m : Memo) : Bool :=
  if sel = "display_time" then true
  else
    match parse_memo_time tz (dictGet m sel PyVal.pynone) with
    | none => false
    | some t =>
      if (match startDt with | some s => decide (t < s) | none => false) then false
      else if (match endDt with | some e => decide (e < t) | none => false) then false
      else true

/-- The accumulation loop of src/main.py:390-393: append records one by one,
breaking the instant the result reaches the configured maximum. -/
def appendUpTo (maxC : Nat) (acc : List Memo) : List Memo → List Memo
  | [] => acc
  | m :: rest =>
    let acc' := acc ++ [m]
    if maxC ≤ acc'.length then acc' else appendUpTo maxC acc' rest

/-- Why the page loop stopped.  `outOfTrace` is a model artifact: the finite
collaborator trace was exhausted while a continuation token was still
pending.  `raised` models an exception escaping the loop body. -/
inductive LoopExit where
  | reachMax
  | emptyPage
  | noMorePages
  | outOfTrace
  | raised (msg : String)
deriving DecidableEq, Repr

/-- The mutable locals of `run_search`'s `while True` loop. -/
structure LoopState where
  result_memos : List Memo
  steps : List String
  requests : List PageRequest
  page_count : Nat
  scanned_count : Nat
  date_filtered_count : Nat
  keyword_filtered_count : Nat

/-- The per-page date filter pass (src/main.py:370-381). -/
def page_date_kept (tz : Int) (sel : String) (startDt endDt : Option Int)
    (p : PageResp) : List Memo :=
  p.memos.filter (date_pass tz sel startDt endDt)

/-- The per-page keyword filter pass (src/main.py:384-387): the list
comprehension runs only for a non-empty trimmed query. -/
def page_keyword_kept (queryText : String) (dateKept : List Memo) :
    Except String (List Memo) :=
  if strEmpty queryText then Except.ok dateKept
  else filterE (fun m => memo_match_keyword m queryText) dateKept

/-- The `while True` page loop of `run_search` (src/main.py:358-401), driven
by the collaborator's response trace `pages` (the i-th issued request is
answered by the i-th trace element). -/
def searchLoop (tz : Int) (maxC : Nat) (sel : String) (startDt endDt : Option Int)
    (queryText : String) (includeArchived : Bool) (oldFilter : Option String) :
    Option String → List PageResp → LoopState → LoopState × LoopExit
  | tok, [], st =>
    ({ st with page_count := st.page_count + 1,
               requests := st.requests ++ [mkPageRequest includeArchived oldFilter tok] },
     .outOfTrace)
  | tok, p :: rest, st =>
    let st1 := { st with page_count := st.page_count + 1,
                         requests := st.requests ++ [mkPageRequest includeArchived oldFilter tok] }
    if p.memos.isEmpty then (st1, .emptyPage)
    else
      let st2 := { st1 with scanned_count := st1.scanned_count + p.memos.length }
      let dateKept := page_date_kept tz sel startDt endDt p
      let st3 := { st2 with date_filtered_count := st2.date_filtered_count + dateKept.length }
      match page_keyword_kept queryText dateKept with
      | .error msg => (st3, .raised msg)
      | .ok keywordKept =>
        let st4 := { st3 with
          keyword_filtered_count := st3.keyword_filtered_count + keywordKept.length }
        let newRes := appendUpTo maxC st4.result_memos keywordKept
        let st5 := { st4 with result_memos := newRes }
        if maxC ≤ newRes.length then
          ({ st5 with steps := st5.steps ++ ["stop_reason=reach_search_max_count"] },
           .reachMax)
        else if tokenTruthy p.nextToken then
          searchLoop tz maxC sel startDt endDt queryText includeArchived oldFilter
            p.nextToken rest st5
        else
          ({ st5 with steps := st5.steps ++ ["stop_reason=no_more_pages"] },
           .noMorePages)

/-- `(date_field or "display_time").strip().lower()` plus the whitelist check
(src/main.py:316-318). -/
def normalize_date_field (df : String) : String :=
  let s := pyLower (pyStrip (if strEmpty df then "display_time" else df))
  if s = "display_time" ∨ s = "create_time" ∨ s = "update_time" then s
  else "display_time"

/-- The `old_filter_parts` built for the `display_time` selector
(src/main.py:339-344). -/
def renderOldFilter (startDt endDt : Option Int) : List String :=
  (match startDt with
   | some s => ["display_time_after == " ++ toString s]
   | none => []) ++
  (match endDt with
   | some e => ["display_time_before == " ++ toString e]
   | none => [])

/-- `start_dt and end_dt and start_dt > end_dt` (datetimes are always
truthy, so this is the both-present check). -/
def date_range_invalid (startDt endDt : Option Int) : Bool :=
  match startDt, endDt with
  | some s, some e => decide (e < s)
  | _, _ => false

/-- `MemosClient._normalize_base_url`. -/
def normalize_base_url (url : String) : String :=
  let cleaned := rstripSlashes (pyStrip url)
  if strEmpty cleaned then ""
  else if listEnds "/api/v1".data cleaned.data then cleaned
  else cleaned ++ "/api/v1"

/-- `MemosClient.__init__`'s validation: the `MemosClientError` message it
raises, if any (no network involved). -/
def client_check (cfg : Config) : Option String :=
  if strEmpty (normalize_base_url cfg.memos_base_url) then some "memos_base_url is empty"
  else if strEmpty (pyStrip cfg.memos_token) then some "memos_token is empty"
  else none

/-- The arguments of `run_search`. -/
structure SearchArgs where
  query : Option String
  include_archived : Bool
  start_date : Option String
  end_date : Option String
  date_field : String

/-- The opening audit step of `run_search` (simplified rendering of the
f-string at src/main.py:319-323; its exact text is not claim-relevant). -/
def start_step (traceId : String) (a : SearchArgs) (maxC : Nat) (sel : String) : String :=
  "start memos_search trace=" ++ traceId ++
  " query_present=" ++ toString (!strEmpty (pyStrip (a.query.getD ""))) ++
  " include_archived=" ++ toString a.include_archived ++
  " search_max_count=" ++ toString maxC ++
  " start_date=" ++ (match a.start_date with | some s => s | none => "None") ++
  " end_date=" ++ (match a.end_date with | some s => s | none => "None") ++
  " date_field=" ++ sel

/-- The loop locals at entry of the `while True` loop. -/
def init_loop_state (step0 : String) : LoopState :=
  { result_memos := [], steps := [step0], requests := [],
    page_count := 0, scanned_count := 0, date_filtered_count := 0,
    keyword_filtered_count := 0 }

/-- The whole fetching/filtering part of `run_search` after preflight: build
the pushed-down filter and drive the page loop from the collaborator trace. -/
def search_pipeline (cfg : Config) (traceId : String) (a : SearchArgs)
    (startDt endDt : Option Int) (pages : List PageResp) : LoopState × LoopExit :=
  let sel := normalize_date_field a.date_field
  let parts := if sel = "display_time" then renderOldFilter startDt endDt else []
  let oldFilter := if parts.isEmpty then none else some (joinSep " && " parts)
  searchLoop cfg.tz_offset cfg.search_max_count sel startDt endDt
    (pyStrip (a.query.getD "")) a.include_archived oldFilter none pages
    (init_loop_state (start_step traceId a cfg.search_max_count sel))

/-- The post-loop audit steps of a successful search (src/main.py:403-410). -/
def closing_steps (queryText : String) (out : LoopState) : List String :=
  [if strEmpty queryText then "keyword_filter_skipped query_empty=true"
   else "keyword_filter_applied query=" ++ queryText,
   "pipeline_done pages=" ++ toString out.page_count ++
   " scanned=" ++ toString out.scanned_count ++
   " date_kept=" ++ toString out.date_filtered_count ++
   " keyword_kept=" ++ toString out.keyword_filtered_count ++
   " final=" ++ toString out.result_memos.length]

/-- The metrics dict of a successful search (src/main.py:424-435). -/
def success_metrics (cfg : Config) (a : SearchArgs) (sel queryMode : String)
    (out : LoopState) : List (String × PyVal) :=
  [("query_mode", .str queryMode),
   ("final_return_limit", .int cfg.search_max_count),
   ("selected_date_field", .str sel),
   ("start_date", match a.start_date with | some s => .str s | none => .pynone),
   ("end_date", match a.end_date with | some s => .str s | none => .pynone),
   ("scanned_count", .int out.scanned_count),
   ("date_filtered_count", .int out.date_filtered_count),
   ("keyword_filtered_count", .int out.keyword_filtered_count),
   ("matched_count", .int out.result_memos.length)]

/-- The success envelope of `run_search` (src/main.py:413-438). -/
def success_envelope (cfg : Config) (traceId : String) (a : SearchArgs)
    (sel queryMode queryText : String) (out : LoopState) : Envelope :=
  { ok := true, trace_id := traceId,
    result := some { query_mode := queryMode,
                     search_max_count := cfg.search_max_count,
                     matched_count := out.result_memos.length,
                     memos := out.result_memos,
                     requested_limit := none, effective_limit := none },
    audit := build_audit cfg traceId (out.steps ++ closing_steps queryText out)
      (some (success_metrics cfg a sel queryMode out)),
    errors := [] }

/-- `MemosManagerPlugin.run_search` (src/main.py:298-468).  Besides the
result envelope it returns the page requests issued to the collaborator, so
that "no network call" properties can be stated. -/
def run_search (cfg : Config) (traceId : String) (a : SearchArgs)
    (pages : List PageResp) : Envelope × List PageRequest :=
  let maxC := cfg.search_max_count
  let sel := normalize_date_field a.date_field
  let step0 := start_step traceId a maxC sel
  match parse_date_bound cfg.tz_offset a.start_date false with
  | .error e =>
    (fail_envelope cfg traceId [step0, "error type=invalid_date message=" ++ e] [e], [])
  | .ok startDt =>
    match parse_date_bound cfg.tz_offset a.end_date true with
    | .error e =>
      (fail_envelope cfg traceId [step0, "error type=invalid_date message=" ++ e] [e], [])
    | .ok endDt =>
      if date_range_invalid startDt endDt then
        (fail_envelope cfg traceId [step0, "error invalid_range start_after_end"]
          ["start_date must be earlier than or equal to end_date"], [])
      else
        match client_check cfg with
        | some msg =>
          (fail_envelope cfg traceId
            [step0, "error type=memos_client_error message=" ++ msg] [msg], [])
        | none =>
          let queryText := pyStrip (a.query.getD "")
          let queryMode := if strEmpty queryText then "recent" else "keyword"
          let lp := search_pipeline cfg traceId a startDt endDt pages
          match lp.2 with
          | .raised msg =>
            ({ ok := false, trace_id := traceId, result := none,
               audit := build_audit cfg traceId
                 (lp.1.steps ++ ["error type=unexpected message=" ++ msg]) none,
               errors := ["unexpected error: " ++ msg] }, lp.1.requests)
          | .outOfTrace =>
            ({ ok := false, trace_id := traceId, result := none,
               audit := build_audit cfg traceId lp.1.steps none,
               errors := ["model_collaborator_trace_exhausted"] }, lp.1.requests)
          | _ =>
            (success_envelope cfg traceId a sel queryMode queryText lp.1, lp.1.requests)

/-- `limit if isinstance(limit, int) and limit > 0 else 20` (src/main.py:643). -/
def requestedOf (limit : Option Int) : Int :=
  match limit with
  | some l => if 0 < l then l else 20
  | none => 20

/-- `MemosManagerPlugin.run_archive_list` (src/main.py:623-657): run the
search pipeline with archived-inclusion forced on, then clamp the result to
`min(requested-or-20, search_max_count)` and overwrite the reported fields. -/
def run_archive_list (cfg : Config) (traceId : String)
    (query start_date end_date : Option String) (date_field : String)
    (limit : Option Int) (pages : List PageResp) : Envelope × List PageRequest :=
  let sr := run_search cfg traceId
    { query := query, include_archived := true, start_date := start_date,
      end_date := end_date, date_field := date_field } pages
  if !sr.1.ok then sr
  else
    let maxC := cfg.search_max_count
    let requested : Int := requestedOf limit
    let effective : Int := min requested (maxC : Int)
    let r := sr.1.result.getD
      { query_mode := "", search_max_count := 0, matched_count := 0,
        memos := [], requested_limit := none, effective_limit := none }
    let trimmed := r.memos.take effective.toNat
    ({ sr.1 with result := some { r with
        query_mode := "archived_list",
        requested_limit := some requested,
        effective_limit := some effective,
        matched_count := trimmed.length,
        memos := trimmed } }, sr.2)

/-! ## Auxiliary definitions for the claims and their witnesses -/

/-- The collaborator's trace eventually reports no further pages: the last
response carries no truthy continuation cursor. -/
def ends_trace (pages : List PageResp) : Bool :=
  match pages.getLast? with
  | none => false
  | some p => !tokenTruthy p.nextToken

/-- Does some audit step record a stop condition? -/
def has_stop_reason (steps : List String) : Bool :=
  steps.any (fun s => containsStr "stop_reason=" s)

/-- `str` elements only. -/
def isPyStr : PyVal → Bool
  | .str _ => true
  | _ => false

/-- The memo's tags field, when a list, holds only strings (so that
`" ".join` cannot raise). -/
def tags_join_ok (m : Memo) : Bool :=
  match dictGet m "tags" (.list []) with
  | .list xs => xs.all isPyStr
  | _ => true

/-- The fixed configuration used by the C3 witness: auth enabled, allow-list
text present but containing no all-digit entry (parses to the empty set). -/
def cfgAuthW : Config :=
  { memos_base_url := "http://memos.example", memos_token := "tok",
    search_max_count := 50, enable_ai_audit_log := true,
    ai_audit_log_max_chars := 2000, enable_uid_auth := true,
    allowed_uids := "not-a-digit, ", tz_offset := 0 }

/-- A corpus whose only occurrence of the keyword is in mixed case. -/
def memoHelloW : Memo := [("content", PyVal.str "Say Hello there")]

/-- Audit-disabled configuration for the C9 witness. -/
def cfgAuditOffW : Config :=
  { cfgAuthW with enable_ai_audit_log := false }

/-- Audit-enabled configuration with a tiny 4-character budget. -/
def cfgAuditTinyW : Config :=
  { cfgAuthW with ai_audit_log_max_chars := 4 }

/-- A memo with no content/snippet and a non-list tags value. -/
def memoOddTagsW : Memo := [("tags", PyVal.int 3)]

/-- A permissive two-record-cap configuration shared by several witnesses. -/
def cfgW : Config :=
  { memos_base_url := "http://memos.example", memos_token := "tok",
    search_max_count := 2, enable_ai_audit_log := true,
    ai_audit_log_max_chars := 2000, enable_uid_auth := false,
    allowed_uids := "", tz_offset := 0 }

/-- A query-less search over non-archived records. -/
def aRecentW : SearchArgs :=
  { query := none, include_archived := false, start_date := none,
    end_date := none, date_field := "display_time" }

def memoA : Memo :=
  [("content", PyVal.str "alpha"), ("display_time", PyVal.str "2024-01-03T10:00:00Z")]

def memoB : Memo := [("content", PyVal.str "beta")]

def memoC : Memo := [("content", PyVal.str "gamma")]

/-- One collaborator page holding three records and no continuation. -/
def pagesW : List PageResp := [{ memos := [memoA, memoB, memoC], nextToken := none }]

/-! ## Helper lemmas -/

theorem appendUpTo_shape (maxC : Nat) :
    ∀ (kept acc : List Memo), ∃ t, appendUpTo maxC acc kept = acc ++ t ∧ t.Sublist kept
  | [], acc => ⟨[], by simp [appendUpTo]⟩
  | m :: rest, acc => by
    simp only [appendUpTo]
    by_cases hc : maxC ≤ (acc ++ [m]).length
    · exact ⟨[m], by rw [if_pos hc], (List.nil_sublist rest).cons₂ m⟩
    · obtain ⟨t, ht, hsub⟩ := appendUpTo_shape maxC rest (acc ++ [m])
      refine ⟨m :: t, ?_, hsub.cons₂ m⟩
      rw [if_neg hc, ht, List.append_assoc]
      rfl

theorem appendUpTo_le (maxC : Nat) :
    ∀ (kept acc : List Memo), acc.length < maxC →
      (appendUpTo maxC acc kept).length ≤ maxC
  | [], acc, h => by simpa [appendUpTo] using Nat.le_of_lt h
  | m :: rest, acc, h => by
    simp only [appendUpTo]
    by_cases hc : maxC ≤ (acc ++ [m]).length
    · rw [if_pos hc]
      simp only [List.length_append, List.length_singleton]
      omega
    · rw [if_neg hc]
      exact appendUpTo_le maxC rest (acc ++ [m]) (Nat.lt_of_not_le hc)

theorem filterE_sublist {f : α → Except String Bool} :
    ∀ {l r : List α}, filterE f l = .ok r → r.Sublist l
  | [], r, h => by
    simp only [filterE, Except.ok.injEq] at h
    simp [← h]
  | x :: xs, r, h => by
    unfold filterE at h
    cases hfx : f x with
    | error e => rw [hfx] at h; exact absurd h (by simp)
    | ok b =>
      rw [hfx] at h
      cases hrec : filterE f xs with
      | error e => rw [hrec] at h; exact absurd h (by simp)
      | ok r' =>
        rw [hrec] at h
        simp only [Except.ok.injEq] at h
        subst h
        by_cases hb : b
        · simp only [hb, if_true]
          exact (filterE_sublist hrec).cons₂ x
        · simp only [hb, if_false]
          exact (filterE_sublist hrec).cons x

theorem page_keyword_kept_sublist {q : String} {dk kept : List Memo}
    (h : page_keyword_kept q dk = .ok kept) : kept.Sublist dk := by
  unfold page_keyword_kept at h
  by_cases hq : strEmpty q
  · rw [if_pos hq] at h
    simp only [Except.ok.injEq] at h
    simp [← h]
  · rw [if_neg hq] at h
    exact filterE_sublist h

theorem page_date_kept_sublist (tz : Int) (sel : String) (sDt eDt : Option Int)
    (p : PageResp) : (page_date_kept tz sel sDt eDt p).Sublist p.memos :=
  List.filter_sublist p.memos

/-- Whatever the page loop accumulates beyond its entry state is an
order-preserving selection of the fetched records, and the accumulated result
never exceeds the cap once below it. -/
theorem searchLoop_result (tz : Int) (maxC : Nat) (sel : String) (sDt eDt : Option Int)
    (q : String) (inc : Bool) (old : Option String) (tok : Option String)
    (pages : List PageResp) (st : LoopState) (h : st.result_memos.length < maxC) :
    (searchLoop tz maxC sel sDt eDt q inc old tok pages st).1.result_memos.length ≤ maxC ∧
    ∃ t, (searchLoop tz maxC sel sDt eDt q inc old tok pages st).1.result_memos =
           st.result_memos ++ t ∧
         t.Sublist (pages.map PageResp.memos).flatten := by
  induction pages generalizing tok st with
  | nil =>
    simp only [searchLoop]
    exact ⟨Nat.le_of_lt h, [], by simp, by simp⟩
  | cons p rest ih =>
    simp only [searchLoop]
    by_cases hemp : p.memos.isEmpty
    · rw [if_pos hemp]
      exact ⟨Nat.le_of_lt h, [], by simp, by simp⟩
    · rw [if_neg hemp]
      cases hk : page_keyword_kept q (page_date_kept tz sel sDt eDt p) with
      | error msg =>
        simp only [hk]
        exact ⟨Nat.le_of_lt h, [], by simp, by simp⟩
      | ok kept =>
        simp only [hk]
        obtain ⟨t0, ht0, hsub0⟩ := appendUpTo_shape maxC kept st.result_memos
        have hsubpage : t0.Sublist p.memos :=
          (hsub0.trans (page_keyword_kept_sublist hk)).trans
            (page_date_kept_sublist tz sel sDt eDt p)
        have hlen := appendUpTo_le maxC kept st.result_memos h
        have hflat : (List.map PageResp.memos (p :: rest)).flatten =
            p.memos ++ (List.map PageResp.memos rest).flatten := by simp
        by_cases hstop : maxC ≤ (appendUpTo maxC st.result_memos kept).length
        · rw [if_pos hstop]
          refine ⟨hlen, t0, ht0, ?_⟩
          rw [hflat]
          exact hsubpage.trans (List.sublist_append_left _ _)
        · rw [if_neg hstop]
          by_cases htok : tokenTruthy p.nextToken
          · rw [if_pos htok]
            obtain ⟨hlen', t1, ht1, hsub1⟩ := ih p.nextToken
              { result_memos := appendUpTo maxC st.result_memos kept, steps := st.steps,
                requests := st.requests ++ [mkPageRequest inc old tok],
                page_count := st.page_count + 1,
                scanned_count := st.scanned_count + p.memos.length,
                date_filtered_count :=
                  st.date_filtered_count + (page_date_kept tz sel sDt eDt p).length,
                keyword_filtered_count := st.keyword_filtered_count + kept.length }
              (Nat.lt_of_not_le hstop)
            refine ⟨hlen', t0 ++ t1, ?_, ?_⟩
            · rw [ht1]
              show appendUpTo maxC st.result_memos kept ++ t1 = _
              rw [ht0, List.append_assoc]
            · rw [hflat]
              exact hsubpage.append hsub1
          · rw [if_neg htok]
            refine ⟨hlen, t0, ht0, ?_⟩
            rw [hflat]
            exact hsubpage.trans (List.sublist_append_left _ _)

/-- Every request the page loop issues carries the state and pushed-down
filter it was invoked with. -/
theorem searchLoop_requests (tz : Int) (maxC : Nat) (sel : String) (sDt eDt : Option Int)
    (q : String) (inc : Bool) (old : Option String) (tok : Option String)
    (pages : List PageResp) (st : LoopState) :
    ∀ req ∈ (searchLoop tz maxC sel sDt eDt q inc old tok pages st).1.requests,
      req ∈ st.requests ∨
      (req.pageSize = 100 ∧
       req.state = (if inc then "ARCHIVED" else "NORMAL") ∧
       req.oldFilter = (if tokenTruthy old then old else none)) := by
  induction pages generalizing tok st with
  | nil =>
    intro req hreq
    simp only [searchLoop] at hreq
    rcases List.mem_append.mp hreq with hin | hnew
    · exact Or.inl hin
    · right
      rcases List.mem_singleton.mp hnew with rfl
      exact ⟨rfl, rfl, rfl⟩
  | cons p rest ih =>
    intro req hreq
    simp only [searchLoop] at hreq
    by_cases hemp : p.memos.isEmpty
    · rw [if_pos hemp] at hreq
      rcases List.mem_append.mp hreq with hin | hnew
      · exact Or.inl hin
      · rcases List.mem_singleton.mp hnew with rfl
        exact Or.inr ⟨rfl, rfl, rfl⟩
    · rw [if_neg hemp] at hreq
      cases hk : page_keyword_kept q (page_date_kept tz sel sDt eDt p) with
      | error msg =>
        simp only [hk] at hreq
        rcases List.mem_append.mp hreq with hin | hnew
        · exact Or.inl hin
        · rcases List.mem_singleton.mp hnew with rfl
          exact Or.inr ⟨rfl, rfl, rfl⟩
      | ok kept =>
        simp only [hk] at hreq
        by_cases hstop : maxC ≤ (appendUpTo maxC st.result_memos kept).length
        · rw [if_pos hstop] at hreq
          rcases List.mem_append.mp hreq with hin | hnew
          · exact Or.inl hin
          · rcases List.mem_singleton.mp hnew with rfl
            exact Or.inr ⟨rfl, rfl, rfl⟩
        · rw [if_neg hstop] at hreq
          by_cases htok : tokenTruthy p.nextToken
          · rw [if_pos htok] at hreq
            rcases ih p.nextToken _ req hreq with hin | hprop
            · rcases List.mem_append.mp hin with hin' | hnew
              · exact Or.inl hin'
              · rcases List.mem_singleton.mp hnew with rfl
                exact Or.inr ⟨rfl, rfl, rfl⟩
            · exact Or.inr hprop
          · rw [if_neg htok] at hreq
            rcases List.mem_append.mp hreq with hin | hnew
            · exact Or.inl hin
            · rcases List.mem_singleton.mp hnew with rfl
              exact Or.inr ⟨rfl, rfl, rfl⟩

theorem ends_trace_of_cons {p : PageResp} {p2 : PageResp} {rest2 : List PageResp}
    (h : ends_trace (p :: p2 :: rest2) = true) : ends_trace (p2 :: rest2) = true := by
  simpa [ends_trace, List.getLast?_cons_cons] using h

theorem memo_match_keyword_congr {q1 q2 : String} (h : caseFold q1 = caseFold q2)
    (m : Memo) : memo_match_keyword m q1 = memo_match_keyword m q2 := by
  simp only [memo_match_keyword, h]

theorem filterE_congr {f g : α → Except String Bool} (h : ∀ a, f a = g a) :
    ∀ l : List α, filterE f l = filterE g l
  | [] => rfl
  | x :: xs => by
    simp only [filterE, h x, filterE_congr h xs]

theorem pyStrList_ok {xs : List PyVal} (h : xs.all isPyStr = true) :
    ∃ ss, pyStrList xs = .ok ss := by
  induction xs with
  | nil => exact ⟨[], rfl⟩
  | cons v rest ih =>
    simp only [List.all_cons, Bool.and_eq_true] at h
    obtain ⟨ss, hss⟩ := ih h.2
    cases v with
    | str s => exact ⟨s :: ss, by simp [pyStrList, hss, Except.map]⟩
    | int n => simp [isPyStr] at h
    | bool b => simp [isPyStr] at h
    | pynone => simp [isPyStr] at h
    | list l => simp [isPyStr] at h

/-! ## Claim theorems -/

theorem strEmpty_eq_false_of_ne {s : String} (h : s ≠ "") : strEmpty s = false := by
  obtain ⟨data⟩ := s
  cases data with
  | nil => exact absurd rfl h
  | cons c cs => rfl

/-- C3: when authorization is enabled and the allow-list parses empty, every
caller with a successfully resolved identifier is denied with the internal
reason `allowed_uids_empty`; the denial envelope is identical for any two
resolved identifier values (given the same fresh trace id), so it carries no
occurrence of the caller's identifier, and the internal reason never appears
in the user-facing errors. -/
theorem C3_empty_allowlist_denies_uniformly (cfg : Config)
    (tid tool u1 u2 : String)
    (hauth : cfg.enable_uid_auth = true)
    (hempty : parse_allowed_uids cfg.allowed_uids = [])
    (h1 : u1 ≠ "") (h2 : u2 ≠ "") :
    check_tool_permission cfg (some u1) tool = (false, "allowed_uids_empty", some u1) ∧
    check_auth_or_return cfg tid (some u1) tool = check_auth_or_return cfg tid (some u2) tool ∧
    check_auth_or_return cfg tid (some u1) tool =
      some (auth_denied_result cfg tid tool "allowed_uids_empty") ∧
    (auth_denied_result cfg tid tool "allowed_uids_empty").errors =
      ["当前用户无权限使用该工具"] ∧
    (∀ e ∈ (auth_denied_result cfg tid tool "allowed_uids_empty").errors,
      containsStr "allowed_uids_empty" e = false) := by
  have hu1 : strEmpty u1 = false := strEmpty_eq_false_of_ne h1
  have hu2 : strEmpty u2 = false := strEmpty_eq_false_of_ne h2
  have hperm1 :
      check_tool_permission cfg (some u1) tool = (false, "allowed_uids_empty", some u1) := by
    simp [check_tool_permission, hauth, hu1, hempty]
  have hperm2 :
      check_tool_permission cfg (some u2) tool = (false, "allowed_uids_empty", some u2) := by
    simp [check_tool_permission, hauth, hu2, hempty]
  refine ⟨hperm1, ?_, ?_, rfl, ?_⟩
  · simp [check_auth_or_return, hperm1, hperm2]
  · simp [check_auth_or_return, hperm1]
  · intro e he
    simp only [auth_denied_result, List.mem_singleton] at he
    subst he
    decide

theorem C3_witness :
    cfgAuthW.enable_uid_auth = true ∧
    parse_allowed_uids cfgAuthW.allowed_uids = [] ∧
    (check_tool_permission cfgAuthW (some "123") "memos_search" =
        (false, "allowed_uids_empty", some "123") ∧
      check_auth_or_return cfgAuthW "t1" (some "123") "memos_search" =
        check_auth_or_return cfgAuthW "t1" (some "456") "memos_search" ∧
      check_auth_or_return cfgAuthW "t1" (some "123") "memos_search" =
        some (auth_denied_result cfgAuthW "t1" "memos_search" "allowed_uids_empty") ∧
      (auth_denied_result cfgAuthW "t1" "memos_search" "allowed_uids_empty").errors =
        ["当前用户无权限使用该工具"] ∧
      (∀ e ∈ (auth_denied_result cfgAuthW "t1" "memos_search" "allowed_uids_empty").errors,
        containsStr "allowed_uids_empty" e = false)) :=
  ⟨rfl, by decide,
    C3_empty_allowlist_denies_uniformly cfgAuthW "t1" "memos_search" "123" "456"
      rfl (by decide) (by decide) (by decide)⟩

/-- C4: keyword matching is case-insensitive — two queries equal under case
folding get the same verdict from the matcher on every memo, hence the
keyword-filter pass of the pipeline keeps exactly the same records of any
fetched corpus. -/
theorem C4_keyword_match_case_insensitive (m : Memo) (corpus : List Memo)
    (q1 q2 : String) (h : caseFold q1 = caseFold q2) :
    memo_match_keyword m q1 = memo_match_keyword m q2 ∧
    filterE (fun mm => memo_match_keyword mm q1) corpus =
      filterE (fun mm => memo_match_keyword mm q2) corpus := by
  exact ⟨memo_match_keyword_congr h m,
    filterE_congr (fun mm => memo_match_keyword_congr h mm) corpus⟩

theorem C4_witness :
    caseFold "Hello" = caseFold "hello" ∧
    memo_match_keyword memoHelloW "Hello" = memo_match_keyword memoHelloW "hello" ∧
    filterE (fun mm => memo_match_keyword mm "Hello") [memoHelloW] =
      filterE (fun mm => memo_match_keyword mm "hello") [memoHelloW] ∧
    memo_match_keyword memoHelloW "hello" = .ok true :=
  ⟨by decide,
    (C4_keyword_match_case_insensitive memoHelloW [memoHelloW] "Hello" "hello" (by decide)).1,
    (C4_keyword_match_case_insensitive memoHelloW [memoHelloW] "Hello" "hello" (by decide)).2,
    rfl⟩

/-- C9: the audit builder joins the steps with newlines; when the join fits
the configured maximum it is returned whole, otherwise it is cut to the
maximum and the truncation marker is appended; when auditing is disabled the
builder returns nothing, whatever the input. -/
theorem C9_audit_truncation (cfg : Config) (tid : String) (steps : List String)
    (metrics : Option (List (String × PyVal))) :
    (cfg.enable_ai_audit_log = false → build_audit cfg tid steps metrics = none) ∧
    (cfg.enable_ai_audit_log = true →
      ∃ a, build_audit cfg tid steps metrics = some a ∧
        a.trace_id = tid ∧
        ((joinSep "\n" steps).length ≤ cfg.ai_audit_log_max_chars →
          a.steps = joinSep "\n" steps) ∧
        (cfg.ai_audit_log_max_chars < (joinSep "\n" steps).length →
          a.steps = strTake (joinSep "\n" steps) cfg.ai_audit_log_max_chars
            ++ "...")) := by
  constructor
  · intro hoff
    simp [build_audit, hoff]
  · intro hon
    unfold build_audit
    rw [hon]
    refine ⟨_, rfl, rfl, ?_, ?_⟩
    · intro hle
      simp [Nat.not_lt.mpr hle]
    · intro hlt
      simp [hlt]

theorem C9_witness :
    build_audit cfgAuditOffW "t" ["abc", "def"] none = none ∧
    (∃ a, build_audit cfgAuditTinyW "t" ["abc", "def"] none = some a ∧
      a.trace_id = "t" ∧
      ((joinSep "\n" ["abc", "def"]).length ≤ cfgAuditTinyW.ai_audit_log_max_chars →
        a.steps = joinSep "\n" ["abc", "def"]) ∧
      (cfgAuditTinyW.ai_audit_log_max_chars < (joinSep "\n" ["abc", "def"]).length →
        a.steps = strTake (joinSep "\n" ["abc", "def"])
          cfgAuditTinyW.ai_audit_log_max_chars ++ "...")) :=
  ⟨(C9_audit_truncation cfgAuditOffW "t" ["abc", "def"] none).1 rfl,
    (C9_audit_truncation cfgAuditTinyW "t" ["abc", "def"] none).2 rfl⟩

/-- C10 (counterexample): the matcher is not total over arbitrary memo
dictionaries — a `tags` list holding a non-string makes `" ".join` raise, so
the matcher does not return a boolean on this record. -/
theorem C10_counterexample :
    memo_match_keyword [("tags", PyVal.list [PyVal.int 1])] "x" =
      Except.error "sequence item: expected str instance" := rfl

/-- C10 (amended): the matcher returns a boolean without raising for every
memo dictionary whose `tags` field, when it is a list, holds only strings —
in particular missing `content`/`snippet` default to the empty string and an
absent or non-list `tags` contributes empty tag text; only a tags list with
a non-string element raises (and that exception aborts the pipeline into its
catch-all failure envelope). -/
theorem C10_match_total_for_string_tags (m : Memo) (q : String)
    (h : tags_join_ok m = true) :
    ∃ b, memo_match_keyword m q = .ok b := by
  unfold memo_match_keyword
  unfold tags_join_ok at h
  cases htags : dictGet m "tags" (.list []) with
  | list xs =>
    rw [htags] at h
    simp only [htags]
    obtain ⟨ss, hss⟩ := pyStrList_ok h
    simp only [pyJoinSpace, hss, Except.map]
    exact ⟨_, rfl⟩
  | str s => simp only [htags]; exact ⟨_, rfl⟩
  | int n => simp only [htags]; exact ⟨_, rfl⟩
  | bool b => simp only [htags]; exact ⟨_, rfl⟩
  | pynone => simp only [htags]; exact ⟨_, rfl⟩

theorem C10_witness :
    tags_join_ok memoOddTagsW = true ∧
    ∃ b, memo_match_keyword memoOddTagsW "q" = .ok b :=
  ⟨by decide, C10_match_total_for_string_tags memoOddTagsW "q" (by decide)⟩

/-- C7 (amended): over any collaborator trace that eventually reports no
continuation cursor, an exception-free run of the page loop terminates
exactly when one of the three stop conditions first holds (cap reached,
empty page, no continuation cursor — never by trace exhaustion); the audit
step list records the stop condition for the cap-reached and no-cursor
stops, but the empty-page stop leaves no `stop_reason` entry. -/
theorem C7_loop_stop_conditions (tz : Int) (maxC : Nat) (sel : String)
    (sDt eDt : Option Int) (q : String) (inc : Bool) (old tok : Option String)
    (pages : List PageResp) (st : LoopState)
    (hends : ends_trace pages = true)
    (hsteps : has_stop_reason st.steps = false) :
    (searchLoop tz maxC sel sDt eDt q inc old tok pages st).2 ≠ LoopExit.outOfTrace ∧
    ((searchLoop tz maxC sel sDt eDt q inc old tok pages st).2 = LoopExit.reachMax →
      maxC ≤ (searchLoop tz maxC sel sDt eDt q inc old tok pages st).1.result_memos.length) ∧
    (has_stop_reason (searchLoop tz maxC sel sDt eDt q inc old tok pages st).1.steps = true ↔
      ((searchLoop tz maxC sel sDt eDt q inc old tok pages st).2 = LoopExit.reachMax ∨
       (searchLoop tz maxC sel sDt eDt q inc old tok pages st).2 = LoopExit.noMorePages)) := by
  induction pages generalizing tok st with
  | nil => simp [ends_trace] at hends
  | cons p rest ih =>
    simp only [searchLoop]
    by_cases hemp : p.memos.isEmpty
    · rw [if_pos hemp]
      exact ⟨by simp, by simp, by simp [hsteps]⟩
    · rw [if_neg hemp]
      cases hk : page_keyword_kept q (page_date_kept tz sel sDt eDt p) with
      | error msg =>
        simp only [hk]
        exact ⟨by simp, by simp, by simp [hsteps]⟩
      | ok kept =>
        simp only [hk]
        by_cases hstop : maxC ≤ (appendUpTo maxC st.result_memos kept).length
        · rw [if_pos hstop]
          refine ⟨by simp, fun _ => hstop, ?_⟩
          refine iff_of_true ?_ (Or.inl rfl)
          have hc : containsStr "stop_reason=" "stop_reason=reach_search_max_count" = true := by
            decide
          simp [has_stop_reason, List.any_append, hc]
        · rw [if_neg hstop]
          by_cases htok : tokenTruthy p.nextToken
          · rw [if_pos htok]
            have hrest : ends_trace rest = true := by
              cases rest with
              | nil =>
                exfalso
                have hlast : !tokenTruthy p.nextToken = true := by
                  simpa [ends_trace, List.getLast?_singleton] using hends
                rw [htok] at hlast
                simp at hlast
              | cons p2 rest2 => exact ends_trace_of_cons hends
            exact ih p.nextToken _ hrest hsteps
          · rw [if_neg htok]
            refine ⟨by simp, by simp, ?_⟩
            refine iff_of_true ?_ (Or.inr rfl)
            have hc : containsStr "stop_reason=" "stop_reason=no_more_pages" = true := by
              decide
            simp [has_stop_reason, List.any_append, hc]

/-- The counterexample trace for C7: the very first response is an empty page
(and announces no continuation). -/
def pagesEmptyW : List PageResp := [{ memos := [], nextToken := none }]

/-- C7 (counterexample): an execution whose loop stops because a fetched page
is empty leaves no `stop_reason` audit entry, refuting "in every such
execution the audit step list records which stop condition fired". -/
theorem C7_counterexample :
    (searchLoop 0 50 "display_time" none none "" false none none pagesEmptyW
      (init_loop_state "start")).2 = LoopExit.emptyPage ∧
    has_stop_reason
      (searchLoop 0 50 "display_time" none none "" false none none pagesEmptyW
        (init_loop_state "start")).1.steps = false := by
  constructor
  · rfl
  · rfl

theorem C7_witness :
    ends_trace pagesW = true ∧
    has_stop_reason (init_loop_state "start").steps = false ∧
    ((searchLoop 0 2 "display_time" none none "" false none none pagesW
        (init_loop_state "start")).2 ≠ LoopExit.outOfTrace ∧
      ((searchLoop 0 2 "display_time" none none "" false none none pagesW
          (init_loop_state "start")).2 = LoopExit.reachMax →
        2 ≤ (searchLoop 0 2 "display_time" none none "" false none none pagesW
          (init_loop_state "start")).1.result_memos.length) ∧
      (has_stop_reason (searchLoop 0 2 "display_time" none none "" false none none pagesW
          (init_loop_state "start")).1.steps = true ↔
        ((searchLoop 0 2 "display_time" none none "" false none none pagesW
            (init_loop_state "start")).2 = LoopExit.reachMax ∨
         (searchLoop 0 2 "display_time" none none "" false none none pagesW
            (init_loop_state "start")).2 = LoopExit.noMorePages))) :=
  ⟨by decide, by decide,
    C7_loop_stop_conditions 0 2 "display_time" none none "" false none none pagesW
      (init_loop_state "start") (by decide) (by decide)⟩

/-- On a successful search, the envelope's payload is exactly the loop's
accumulated sequence (with its length as matched count), and the returned
request log is the loop's. -/
theorem run_search_ok_result (cfg : Config) (tid : String) (a : SearchArgs)
    (pages : List PageResp)
    (hok : (run_search cfg tid a pages).1.ok = true) :
    ∃ sDt eDt,
      parse_date_bound cfg.tz_offset a.start_date false = Except.ok sDt ∧
      parse_date_bound cfg.tz_offset a.end_date true = Except.ok eDt ∧
      (run_search cfg tid a pages).1.result = some
        { query_mode := if strEmpty (pyStrip (a.query.getD "")) then "recent" else "keyword",
          search_max_count := cfg.search_max_count,
          matched_count := (search_pipeline cfg tid a sDt eDt pages).1.result_memos.length,
          memos := (search_pipeline cfg tid a sDt eDt pages).1.result_memos,
          requested_limit := none, effective_limit := none } ∧
      (run_search cfg tid a pages).2 = (search_pipeline cfg tid a sDt eDt pages).1.requests := by
  cases h1 : parse_date_bound cfg.tz_offset a.start_date false with
  | error e => simp [run_search, h1, fail_envelope] at hok
  | ok sDt =>
    cases h2 : parse_date_bound cfg.tz_offset a.end_date true with
    | error e => simp [run_search, h1, h2, fail_envelope] at hok
    | ok eDt =>
      by_cases h3 : date_range_invalid sDt eDt
      · simp [run_search, h1, h2, h3, fail_envelope] at hok
      · cases h4 : client_check cfg with
        | some msg => simp [run_search, h1, h2, h3, h4, fail_envelope] at hok
        | none =>
          cases h5 : (search_pipeline cfg tid a sDt eDt pages).2 with
          | raised msg => simp [run_search, h1, h2, h3, h4, h5] at hok
          | outOfTrace => simp [run_search, h1, h2, h3, h4, h5] at hok
          | reachMax =>
            exact ⟨sDt, eDt, rfl, rfl,
              by simp [run_search, h1, h2, h3, h4, h5, success_envelope],
              by simp [run_search, h1, h2, h3, h4, h5, success_envelope]⟩
          | emptyPage =>
            exact ⟨sDt, eDt, rfl, rfl,
              by simp [run_search, h1, h2, h3, h4, h5, success_envelope],
              by simp [run_search, h1, h2, h3, h4, h5, success_envelope]⟩
          | noMorePages =>
            exact ⟨sDt, eDt, rfl, rfl,
              by simp [run_search, h1, h2, h3, h4, h5, success_envelope],
              by simp [run_search, h1, h2, h3, h4, h5, success_envelope]⟩

/-- Every request the whole pipeline issues carries the requested archived
state, and no pushed-down date filter when the selector is not
`display_time`. -/
theorem search_pipeline_requests (cfg : Config) (tid : String) (a : SearchArgs)
    (sDt eDt : Option Int) (pages : List PageResp) :
    ∀ req ∈ (search_pipeline cfg tid a sDt eDt pages).1.requests,
      req.pageSize = 100 ∧
      req.state = (if a.include_archived then "ARCHIVED" else "NORMAL") ∧
      (normalize_date_field a.date_field ≠ "display_time" → req.oldFilter = none) := by
  intro req hreq
  simp only [search_pipeline] at hreq
  rcases searchLoop_requests _ _ _ _ _ _ _ _ _ _ _ req hreq with hin | ⟨hsz, hstate, hold⟩
  · simp [init_loop_state] at hin
  · refine ⟨hsz, hstate, fun hsel => ?_⟩
    rw [hold]
    simp [hsel]

/-- The request log of `run_search`: empty on the pre-flight failure paths,
otherwise the loop's log. -/
theorem run_search_requests (cfg : Config) (tid : String) (a : SearchArgs)
    (pages : List PageResp) :
    ∀ req ∈ (run_search cfg tid a pages).2,
      req.pageSize = 100 ∧
      req.state = (if a.include_archived then "ARCHIVED" else "NORMAL") ∧
      (normalize_date_field a.date_field ≠ "display_time" → req.oldFilter = none) := by
  intro req hreq
  cases h1 : parse_date_bound cfg.tz_offset a.start_date false with
  | error e => simp [run_search, h1] at hreq
  | ok sDt =>
    cases h2 : parse_date_bound cfg.tz_offset a.end_date true with
    | error e => simp [run_search, h1, h2] at hreq
    | ok eDt =>
      by_cases h3 : date_range_invalid sDt eDt
      · simp [run_search, h1, h2, h3] at hreq
      · cases h4 : client_check cfg with
        | some msg => simp [run_search, h1, h2, h3, h4] at hreq
        | none =>
          have hmem : req ∈ (search_pipeline cfg tid a sDt eDt pages).1.requests := by
            cases h5 : (search_pipeline cfg tid a sDt eDt pages).2 with
            | raised msg => simpa [run_search, h1, h2, h3, h4, h5] using hreq
            | outOfTrace => simpa [run_search, h1, h2, h3, h4, h5] using hreq
            | reachMax => simpa [run_search, h1, h2, h3, h4, h5] using hreq
            | emptyPage => simpa [run_search, h1, h2, h3, h4, h5] using hreq
            | noMorePages => simpa [run_search, h1, h2, h3, h4, h5] using hreq
          exact search_pipeline_requests cfg tid a sDt eDt pages req hmem

/-- C1: for a positive configured cap, a successful `search` returns a memos
sequence of length at most the cap which is a subsequence, in
collaborator-assigned order, of the records fetched from the collaborator. -/
theorem C1_search_capped_subsequence (cfg : Config) (tid : String) (a : SearchArgs)
    (pages : List PageResp) (r : SearchResult)
    (hpos : 0 < cfg.search_max_count)
    (hok : (run_search cfg tid a pages).1.ok = true)
    (hres : (run_search cfg tid a pages).1.result = some r) :
    r.memos.length ≤ cfg.search_max_count ∧
    r.memos.Sublist (pages.map PageResp.memos).flatten := by
  obtain ⟨sDt, eDt, h1, h2, hres', hreq⟩ := run_search_ok_result cfg tid a pages hok
  rw [hres'] at hres
  have hr : r = { query_mode := if strEmpty (pyStrip (a.query.getD "")) then "recent" else "keyword",
                  search_max_count := cfg.search_max_count,
                  matched_count := (search_pipeline cfg tid a sDt eDt pages).1.result_memos.length,
                  memos := (search_pipeline cfg tid a sDt eDt pages).1.result_memos,
                  requested_limit := none, effective_limit := none } :=
    (Option.some.injEq _ _).mp hres.symm
  subst hr
  simp only [search_pipeline]
  obtain ⟨hlen, t, ht, hsub⟩ := searchLoop_result cfg.tz_offset cfg.search_max_count
    (normalize_date_field a.date_field) sDt eDt (pyStrip (a.query.getD ""))
    a.include_archived _ none pages
    (init_loop_state (start_step tid a cfg.search_max_count (normalize_date_field a.date_field)))
    (by simpa [init_loop_state] using hpos)
  refine ⟨hlen, ?_⟩
  rw [show (init_loop_state (start_step tid a cfg.search_max_count
      (normalize_date_field a.date_field))).result_memos = [] from rfl] at ht
  rw [ht]
  simpa using hsub

/-- The concrete successful search payload of the C1 witness. -/
def resW : SearchResult :=
  { query_mode := "recent", search_max_count := 2, matched_count := 2,
    memos := [memoA, memoB], requested_limit := none, effective_limit := none }

theorem C1_witness :
    0 < cfgW.search_max_count ∧
    (resW.memos.length ≤ cfgW.search_max_count ∧
      resW.memos.Sublist ((pagesW.map PageResp.memos).flatten)) :=
  ⟨by decide,
    C1_search_capped_subsequence cfgW "t" aRecentW pagesW resW (by decide) rfl rfl⟩

/-- C2: when both date bounds resolve and the start instant is strictly after
the end instant, `search` fails immediately: `ok = false`, empty result, a
non-empty errors list, and not a single page request is issued. -/
theorem C2_invalid_range_no_fetch (cfg : Config) (tid : String) (a : SearchArgs)
    (pages : List PageResp) (s e : Int)
    (hs : parse_date_bound cfg.tz_offset a.start_date false = Except.ok (some s))
    (he : parse_date_bound cfg.tz_offset a.end_date true = Except.ok (some e))
    (hlt : e < s) :
    (run_search cfg tid a pages).1.ok = false ∧
    (run_search cfg tid a pages).1.result = none ∧
    (run_search cfg tid a pages).1.errors ≠ [] ∧
    (run_search cfg tid a pages).2 = [] := by
  have hinv : date_range_invalid (some s) (some e) = true := by
    simp [date_range_invalid, hlt]
  refine ⟨?_, ?_, ?_, ?_⟩ <;> simp [run_search, hs, he, hinv, fail_envelope]

/-- Search arguments whose resolved start strictly follows the resolved end. -/
def aBadRangeW : SearchArgs :=
  { query := none, include_archived := false, start_date := some "2024-01-02",
    end_date := some "2024-01-01", date_field := "display_time" }

theorem C2_witness :
    parse_date_bound cfgW.tz_offset aBadRangeW.start_date false =
      Except.ok (some 1704153600) ∧
    parse_date_bound cfgW.tz_offset aBadRangeW.end_date true =
      Except.ok (some 1704153599) ∧
    (1704153599 : Int) < 1704153600 ∧
    ((run_search cfgW "t" aBadRangeW pagesW).1.ok = false ∧
      (run_search cfgW "t" aBadRangeW pagesW).1.result = none ∧
      (run_search cfgW "t" aBadRangeW pagesW).1.errors ≠ [] ∧
      (run_search cfgW "t" aBadRangeW pagesW).2 = []) :=
  ⟨rfl, rfl, by decide,
    C2_invalid_range_no_fetch cfgW "t" aBadRangeW pagesW 1704153600 1704153599
      rfl rfl (by decide)⟩

/-- C8: with a `create_time`/`update_time` selector no page request carries a
server-side date filter expression, and the local per-record filter keeps a
record exactly when its own timestamp field parses and lies within the
bounds — in particular a record whose target field is missing or unparsable
is dropped even when no start or end bound is set. -/
theorem C8_local_date_filter (cfg : Config) (tid : String) (a : SearchArgs)
    (pages : List PageResp)
    (hsel : normalize_date_field a.date_field ≠ "display_time") :
    (∀ req ∈ (run_search cfg tid a pages).2, req.oldFilter = none) ∧
    (∀ sDt eDt : Option Int, ∀ m : Memo,
      parse_memo_time cfg.tz_offset
          (dictGet m (normalize_date_field a.date_field) PyVal.pynone) = none →
      date_pass cfg.tz_offset (normalize_date_field a.date_field) sDt eDt m = false) ∧
    (∀ sDt eDt : Option Int, ∀ m : Memo, ∀ t : Int,
      parse_memo_time cfg.tz_offset
          (dictGet m (normalize_date_field a.date_field) PyVal.pynone) = some t →
      (date_pass cfg.tz_offset (normalize_date_field a.date_field) sDt eDt m = true ↔
        (∀ sb, sDt = some sb → sb ≤ t) ∧ (∀ eb, eDt = some eb → t ≤ eb))) := by
  refine ⟨fun req hreq => (run_search_requests cfg tid a pages req hreq).2.2 hsel, ?_, ?_⟩
  · intro sDt eDt m hpm
    unfold date_pass
    rw [if_neg hsel, hpm]
  · intro sDt eDt m t hpm
    unfold date_pass
    rw [if_neg hsel, hpm]
    rcases sDt with _ | sb <;> rcases eDt with _ | eb <;> simp

/-- A search over the plugin-filtered `create_time` selector. -/
def aCreateW : SearchArgs :=
  { query := none, include_archived := false, start_date := none,
    end_date := none, date_field := "create_time" }

theorem C8_witness :
    normalize_date_field aCreateW.date_field ≠ "display_time" ∧
    ((∀ req ∈ (run_search cfgW "t" aCreateW pagesW).2, req.oldFilter = none) ∧
      (∀ sDt eDt : Option Int, ∀ m : Memo,
        parse_memo_time cfgW.tz_offset
            (dictGet m (normalize_date_field aCreateW.date_field) PyVal.pynone) = none →
        date_pass cfgW.tz_offset (normalize_date_field aCreateW.date_field) sDt eDt m =
          false) ∧
      (∀ sDt eDt : Option Int, ∀ m : Memo, ∀ t : Int,
        parse_memo_time cfgW.tz_offset
            (dictGet m (normalize_date_field aCreateW.date_field) PyVal.pynone) = some t →
        (date_pass cfgW.tz_offset (normalize_date_field aCreateW.date_field) sDt eDt m =
            true ↔
          (∀ sb, sDt = some sb → sb ≤ t) ∧ (∀ eb, eDt = some eb → t ≤ eb)))) :=
  ⟨by decide, C8_local_date_filter cfgW "t" aCreateW pagesW (by decide)⟩

/-- C5: `archive_list` drives the search pipeline with archived-inclusion
forced on (every issued request carries state `ARCHIVED`); a pipeline failure
envelope is returned unchanged; on success the memos are clamped to the first
`min(requested-or-default-20, configured cap)` records of the pipeline's
sequence, the reported count is the clamped length, and the mode tag is
overwritten to `archived_list`. -/
theorem C5_archive_list_clamps (cfg : Config) (tid : String)
    (q sd ed : Option String) (df : String) (limit : Option Int)
    (pages : List PageResp) :
    (run_archive_list cfg tid q sd ed df limit pages).2 =
      (run_search cfg tid { query := q, include_archived := true, start_date := sd, end_date := ed, date_field := df } pages).2 ∧
    (∀ req ∈ (run_archive_list cfg tid q sd ed df limit pages).2,
      req.state = "ARCHIVED") ∧
    ((run_search cfg tid { query := q, include_archived := true, start_date := sd, end_date := ed, date_field := df } pages).1.ok = false →
      (run_archive_list cfg tid q sd ed df limit pages).1 =
        (run_search cfg tid { query := q, include_archived := true, start_date := sd, end_date := ed, date_field := df } pages).1) ∧
    (∀ r : SearchResult,
      (run_search cfg tid { query := q, include_archived := true, start_date := sd, end_date := ed, date_field := df } pages).1.ok = true →
      (run_search cfg tid { query := q, include_archived := true, start_date := sd, end_date := ed, date_field := df } pages).1.result = some r →
      (run_archive_list cfg tid q sd ed df limit pages).1.ok = true ∧
      (run_archive_list cfg tid q sd ed df limit pages).1.result = some
        { r with
          query_mode := "archived_list",
          requested_limit := some (requestedOf limit),
          effective_limit := some (min (requestedOf limit) (cfg.search_max_count : Int)),
          matched_count := (r.memos.take
            (min (requestedOf limit) (cfg.search_max_count : Int)).toNat).length,
          memos := r.memos.take
            (min (requestedOf limit) (cfg.search_max_count : Int)).toNat }) := by
  have harch : ∀ req ∈ (run_search cfg tid { query := q, include_archived := true, start_date := sd, end_date := ed, date_field := df } pages).2,
      req.state = "ARCHIVED" := by
    intro req hreq
    simpa using (run_search_requests cfg tid _ pages req hreq).2.1
  by_cases hok : (run_search cfg tid { query := q, include_archived := true, start_date := sd, end_date := ed, date_field := df } pages).1.ok
  · refine ⟨?_, ?_, ?_, ?_⟩
    · simp [run_archive_list, hok]
    · intro req hreq
      refine harch req ?_
      simpa [run_archive_list, hok] using hreq
    · intro hfalse
      rw [hok] at hfalse
      exact absurd hfalse (by simp)
    · intro r hok' hres
      constructor
      · simp [run_archive_list, hok]
      · simp [run_archive_list, hok, hres]
  · have hok' : (run_search cfg tid { query := q, include_archived := true, start_date := sd, end_date := ed, date_field := df } pages).1.ok = false :=
      Bool.not_eq_true _ ▸ (by simpa using hok)
    refine ⟨?_, ?_, ?_, ?_⟩
    · simp [run_archive_list, hok']
    · intro req hreq
      refine harch req ?_
      simpa [run_archive_list, hok'] using hreq
    · intro _
      simp [run_archive_list, hok']
    · intro r hcon
      rw [hok'] at hcon
      exact absurd hcon (by simp)

/-- The clamped archive-list payload of the C5 witness: a requested limit of
100 against a configured cap of 2. -/
def resArchiveW : SearchResult :=
  { query_mode := "archived_list", search_max_count := 2, matched_count := 2,
    memos := [memoA, memoB], requested_limit := some 100,
    effective_limit := some 2 }

theorem C5_witness :
    (∀ req ∈ (run_archive_list cfgW "t" none none none "display_time"
        (some 100) pagesW).2, req.state = "ARCHIVED") ∧
    (run_archive_list cfgW "t" none none none "display_time" (some 100)
        pagesW).1.ok = true ∧
    (run_archive_list cfgW "t" none none none "display_time" (some 100)
        pagesW).1.result = some resArchiveW ∧
    resArchiveW.memos.length ≤ 2 :=
  ⟨(C5_archive_list_clamps cfgW "t" none none none "display_time" (some 100)
      pagesW).2.1,
    ((C5_archive_list_clamps cfgW "t" none none none "display_time" (some 100)
      pagesW).2.2.2 resW rfl rfl).1,
    (((C5_archive_list_clamps cfgW "t" none none none "display_time" (some 100)
      pagesW).2.2.2 resW rfl rfl).2).trans (by rfl),
    by decide⟩

/-- Does the string contain the literal `'Z'`? -/
def hasZ (s : String) : Bool :=
  s.data.any (· == 'Z')

theorem twoDigits_isDigit {a b : Char} {n : Nat} (h : twoDigits a b = some n) :
    a.isDigit = true ∧ b.isDigit = true := by
  unfold twoDigits charDigit at h
  by_cases ha : a.isDigit <;> by_cases hb : b.isDigit <;>
    simp [ha, hb] at h ⊢

theorem fourDigits_isDigit {a b c d : Char} {n : Nat} (h : fourDigits a b c d = some n) :
    a.isDigit = true ∧ b.isDigit = true ∧ c.isDigit = true ∧ d.isDigit = true := by
  unfold fourDigits at h
  cases h1 : twoDigits a b with
  | none => rw [h1] at h; cases h
  | some x =>
    cases h2 : twoDigits c d with
    | none => rw [h1, h2] at h; cases h
    | some y =>
      obtain ⟨ha, hb⟩ := twoDigits_isDigit h1
      obtain ⟨hc, hd⟩ := twoDigits_isDigit h2
      exact ⟨ha, hb, hc, hd⟩

/-- A string accepted by the date parser consists of digits and dashes only. -/
theorem parseDateList_mem {cs : List Char} {d : Date} (hp : parseDateList cs = some d) :
    ∀ c ∈ cs, c.isDigit = true ∨ c = '-' := by
  rcases cs with _|⟨y1,_|⟨y2,_|⟨y3,_|⟨y4,_|⟨s1,_|⟨m1,_|⟨m2,_|⟨s2,_|⟨d1,_|⟨d2,_|⟨x,rest⟩⟩⟩⟩⟩⟩⟩⟩⟩⟩⟩ <;>
    first
      | (intro c hc; cases hp)
      | skip
  · -- the exact ten-character case
    simp only [parseDateList] at hp
    by_cases hs : s1 = '-' ∧ s2 = '-'
    · rw [if_pos hs] at hp
      cases h4 : fourDigits y1 y2 y3 y4 with
      | none => rw [h4] at hp; cases hp
      | some y =>
        cases hm : twoDigits m1 m2 with
        | none => rw [h4, hm] at hp; cases hp
        | some mo =>
          cases hd : twoDigits d1 d2 with
          | none => rw [h4, hm, hd] at hp; cases hp
          | some da =>
            obtain ⟨hy1, hy2, hy3, hy4⟩ := fourDigits_isDigit h4
            obtain ⟨hm1, hm2⟩ := twoDigits_isDigit hm
            obtain ⟨hd1, hd2⟩ := twoDigits_isDigit hd
            intro c hc
            simp only [List.mem_cons, List.not_mem_nil, or_false] at hc
            rcases hc with rfl | rfl | rfl | rfl | rfl | rfl | rfl | rfl | rfl | rfl
            · exact Or.inl hy1
            · exact Or.inl hy2
            · exact Or.inl hy3
            · exact Or.inl hy4
            · exact Or.inr hs.1
            · exact Or.inl hm1
            · exact Or.inl hm2
            · exact Or.inr hs.2
            · exact Or.inl hd1
            · exact Or.inl hd2
    · rw [if_neg hs] at hp
      cases hp

theorem mem_dropWhile_of_not {p : Char → Bool} {c : Char} (hc : p c = false) :
    ∀ {l : List Char}, c ∈ l → c ∈ l.dropWhile p := by
  intro l hmem
  induction l with
  | nil => cases hmem
  | cons x xs ih =>
    rw [List.dropWhile_cons]
    by_cases hx : p x
    · rw [if_pos hx]
      rcases List.mem_cons.mp hmem with rfl | h
      · rw [hx] at hc; cases hc
      · exact ih h
    · rw [if_neg hx]
      exact hmem

theorem hasZ_pyStrip {s : String} (h : hasZ s = true) : hasZ (pyStrip s) = true := by
  simp only [hasZ, List.any_eq_true] at h ⊢
  obtain ⟨c, hc, hcz⟩ := h
  have hz : c = 'Z' := by simpa using hcz
  subst hz
  refine ⟨'Z', ?_, by simp⟩
  show 'Z' ∈ ((s.data.dropWhile Char.isWhitespace).reverse.dropWhile
    Char.isWhitespace).reverse
  rw [List.mem_reverse]
  refine mem_dropWhile_of_not (by decide) ?_
  rw [List.mem_reverse]
  exact mem_dropWhile_of_not (by decide) hc

theorem plus_mem_strReplaceZ {s : String} (h : 'Z' ∈ s.data) :
    '+' ∈ (strReplaceZ s).data := by
  show '+' ∈ (s.data.map (fun c => if c == 'Z' then "+00:00".data else [c])).flatten
  rw [List.mem_flatten]
  refine ⟨"+00:00".data, ?_, by decide⟩
  have hfz : (fun c => if c == 'Z' then "+00:00".data else [c]) 'Z' = "+00:00".data := by
    decide
  rw [← hfz]
  exact List.mem_map_of_mem _ h

theorem parseTimeOff_off_of_plus {cs : List Char} {h mi sec : Nat} {off : Option Int}
    (hplus : '+' ∈ cs) (hp : parseTimeOff cs = some (h, mi, sec, off)) :
    off ≠ none := by
  simp only [parseTimeOff] at hp
  cases ht : parseTimeList (cs.takeWhile notSign) with
  | none => rw [ht] at hp; simp at hp
  | some hms =>
    obtain ⟨h', mi', s'⟩ := hms
    rw [ht] at hp
    cases ho : cs.dropWhile notSign with
    | nil =>
      exfalso
      have hall := List.dropWhile_eq_nil_iff.mp ho '+' hplus
      exact absurd hall (by decide)
    | cons o os =>
      rw [ho] at hp
      cases hoff : parseOffList (o :: os) with
      | none => rw [hoff] at hp; simp at hp
      | some k =>
        rw [hoff] at hp
        simp only [Option.map_some', Option.some.injEq, Prod.mk.injEq] at hp
        obtain ⟨-, -, -, hoff'⟩ := hp
        rw [← hoff']
        exact Option.some_ne_none k

theorem parseDateTimeList_off_of_plus {cs : List Char} {d : Date} {h mi sec : Nat}
    {off : Option Int} (hplus : '+' ∈ cs)
    (hp : parseDateTimeList cs = some (d, h, mi, sec, off)) : off ≠ none := by
  cases hd : parseDateList (cs.take 10) with
  | none =>
    simp only [parseDateTimeList, hd] at hp
    exact absurd hp (by simp)
  | some day =>
    have hsplit : '+' ∈ cs.take 10 ++ cs.drop 10 := by
      rw [List.take_append_drop]; exact hplus
    rcases List.mem_append.mp hsplit with h10 | hrest
    · exfalso
      rcases parseDateList_mem hd '+' h10 with hdig | hdash
      · exact absurd hdig (by decide)
      · exact absurd hdash (by decide)
    · cases hdrop : cs.drop 10 with
      | nil => rw [hdrop] at hrest; cases hrest
      | cons sep tr =>
        rw [hdrop] at hrest
        simp only [parseDateTimeList, hd, hdrop] at hp
        by_cases hsep : sep = 'T' ∨ sep = ' '
        · rw [if_pos hsep] at hp
          rcases List.mem_cons.mp hrest with heq | htr
          · exfalso
            rcases hsep with h1 | h1 <;> rw [h1] at heq <;> exact absurd heq (by decide)
          · cases hto : parseTimeOff tr with
            | none => rw [hto] at hp; simp at hp
            | some tup =>
              obtain ⟨h', mi', s', off'⟩ := tup
              rw [hto] at hp
              simp only [Option.map_some', Option.some.injEq, Prod.mk.injEq] at hp
              obtain ⟨-, -, -, -, hoff'⟩ := hp
              rw [← hoff']
              exact parseTimeOff_off_of_plus htr hto
        · rw [if_neg hsep] at hp
          simp at hp

theorem strEmpty_eq_false_of_length {t : String} (h : t.length ≠ 0) :
    strEmpty t = false := by
  obtain ⟨data⟩ := t
  cases data with
  | nil => exact absurd rfl h
  | cons c cs => rfl

/-- C6: the date-boundary resolver returns no bound on empty/absent input; a
10-character stripped input that parses as a calendar date resolves, for a
start bound, to the UTC instant of local midnight of that day and, for an end
bound, to local 23:59:59 of that day; any other non-empty input is parsed as
a full timestamp after the `Z → +00:00` replacement, assuming the local zone
exactly when the timestamp carries no offset; and an input containing the
literal `Z` resolves independently of the local zone (it is pinned to UTC). -/
theorem C6_date_bound_resolver :
    (∀ (tz : Int) (isEnd : Bool), parse_date_bound tz none isEnd = .ok none) ∧
    (∀ (tz : Int) (isEnd : Bool) (s : String), pyStrip s = "" →
      parse_date_bound tz (some s) isEnd = .ok none) ∧
    (∀ (tz : Int) (s : String) (d : Date), (pyStrip s).length = 10 →
      parseDateList (pyStrip s).data = some d →
      parse_date_bound tz (some s) false = .ok (some (toEpoch d 0 0 0 tz)) ∧
      parse_date_bound tz (some s) true = .ok (some (toEpoch d 23 59 59 tz))) ∧
    (∀ (tz : Int) (isEnd : Bool) (s : String) (d : Date) (h mi sec : Nat)
        (off : Option Int),
      pyStrip s ≠ "" → (pyStrip s).length ≠ 10 →
      parseDateTimeList (strReplaceZ (pyStrip s)).data = some (d, h, mi, sec, off) →
      parse_date_bound tz (some s) isEnd = .ok (some (toEpoch d h mi sec (off.getD tz)))) ∧
    (∀ (tz1 tz2 : Int) (isEnd : Bool) (s : String) (v : Int), hasZ s = true →
      parse_date_bound tz1 (some s) isEnd = .ok (some v) →
      parse_date_bound tz2 (some s) isEnd = .ok (some v)) := by
  refine ⟨fun tz isEnd => rfl, ?_, ?_, ?_, ?_⟩
  · intro tz isEnd s h
    simp [parse_date_bound, h, show strEmpty "" = true from rfl]
  · intro tz s d hlen hd
    have hne : strEmpty (pyStrip s) = false :=
      strEmpty_eq_false_of_length (by rw [hlen]; decide)
    constructor <;> simp [parse_date_bound, hne, hlen, hd]
  · intro tz isEnd s d h mi sec off hne hlen hp
    have hne' : strEmpty (pyStrip s) = false := strEmpty_eq_false_of_ne hne
    simp [parse_date_bound, hne', hlen, hp]
  · intro tz1 tz2 isEnd s v hZ hparse
    have hz' : 'Z' ∈ (pyStrip s).data := by
      have h2 := hasZ_pyStrip hZ
      simp only [hasZ, List.any_eq_true] at h2
      obtain ⟨c, hc, hcz⟩ := h2
      have hcz' : c = 'Z' := by simpa using hcz
      subst hcz'
      exact hc
    by_cases hemp : strEmpty (pyStrip s)
    · simp [parse_date_bound, hemp] at hparse
    · by_cases hlen : (pyStrip s).length = 10
      · cases hdl : parseDateList (pyStrip s).data with
        | none => simp [parse_date_bound, hemp, hlen, hdl] at hparse
        | some day =>
          exfalso
          rcases parseDateList_mem hdl 'Z' hz' with hdig | hdash
          · exact absurd hdig (by decide)
          · exact absurd hdash (by decide)
      · cases hp : parseDateTimeList (strReplaceZ (pyStrip s)).data with
        | none => simp [parse_date_bound, hemp, hlen, hp] at hparse
        | some tup =>
          obtain ⟨d, h, mi, sec, off⟩ := tup
          have hplus : '+' ∈ (strReplaceZ (pyStrip s)).data := plus_mem_strReplaceZ hz'
          have hoff : off ≠ none := parseDateTimeList_off_of_plus hplus hp
          obtain ⟨k, hk⟩ : ∃ k, off = some k := Option.ne_none_iff_exists'.mp hoff
          subst hk
          simp [parse_date_bound, hemp, hlen, hp] at hparse ⊢
          exact hparse

theorem C6_witness :
    parse_date_bound 28800 none false = .ok none ∧
    (pyStrip "2024-01-01").length = 10 ∧
    parseDateList (pyStrip "2024-01-01").data = some ⟨2024, 1, 1⟩ ∧
    (parse_date_bound 28800 (some "2024-01-01") false =
        .ok (some (toEpoch ⟨2024, 1, 1⟩ 0 0 0 28800)) ∧
      parse_date_bound 28800 (some "2024-01-01") true =
        .ok (some (toEpoch ⟨2024, 1, 1⟩ 23 59 59 28800))) ∧
    hasZ "2024-01-01T12:30:05Z" = true ∧
    parse_date_bound 3600 (some "2024-01-01T12:30:05Z") true =
      .ok (some 1704112205) ∧
    parse_date_bound (-7200) (some "2024-01-01T12:30:05Z") true =
      .ok (some 1704112205) :=
  ⟨C6_date_bound_resolver.1 28800 false,
    by decide,
    by decide,
    C6_date_bound_resolver.2.2.1 28800 "2024-01-01" ⟨2024, 1, 1⟩ (by decide) (by decide),
    by decide,
    rfl,
    C6_date_bound_resolver.2.2.2.2 3600 (-7200) true "2024-01-01T12:30:05Z" 1704112205
      (by decide) rfl⟩

end MemosManager
